import Mathlib

/-!
Shallow embedding of `src/compiler/code-generator.cc` (the TurboFan
code-generation driver): data model, safepoint recording, lazy-deoptimization
bookkeeping, deoptimization translations and the literal pool, together with
proofs of the specification's claims about them.

Machine `int` values are modelled as `Int` (no arithmetic in this file can
overflow 32 bits), handles to managed heap objects as opaque identities
(`Nat`), and fatal checks (`DCHECK` / `CHECK` / `UNREACHABLE`) as the error
branch of `Except`.
-/

namespace V8

/-- Errors corresponding to the source's fatal checks. -/
inductive Err where
  | dcheckFailed
  | checkFailed
  | unreachable
  | outOfRange
  deriving DecidableEq, Repr

/-- Opaque identity of a handle's target: either a Smi — an immediate
tagged integer, whose identity is its value (two handles to equal Smis
hold the same tagged word) — or a managed heap object, whose identity is
its allocation.  `Handle::is_identical_to` compares the stored words, so
it is equality of these identities. -/
inductive ObjRef where
  | smi (value : Int)
  | heap (id : Nat)
  deriving DecidableEq, Repr

/-- Modelled from the spec: the Smi range of the external tagged-value
representation (the portable 31-bit payload; wider architectures only
enlarge the range). -/
def Smi.kMinValue : Int := -(2 ^ 30)

def Smi.kMaxValue : Int := 2 ^ 30 - 1

/-- `Smi::IsValid`. -/
def Smi.IsValid (value : Int) : Bool :=
  Smi.kMinValue ≤ value ∧ value ≤ Smi.kMaxValue

/-- `Constant` from `instruction.h`: the kinds of immediate constants.
The `Float64` payload is carried opaquely (the code generator never
computes with it, only forwards it to the factory). -/
inductive Constant where
  | kInt32 (v : Int)
  | kInt64 (v : Int)
  | kFloat64 (bits : Int)
  | kExternalReference (ref : Nat)
  | kHeapObject (ref : ObjRef)
  deriving DecidableEq, Repr

/-- `InstructionOperand`: tagged variant over the operand kinds queried by
the `Is*` predicates in the source. -/
inductive InstructionOperand where
  | StackSlot (index : Int)
  | DoubleStackSlot (index : Int)
  | Register (index : Int)
  | DoubleRegister (index : Int)
  | Immediate (c : Constant)
  deriving DecidableEq, Repr

namespace InstructionOperand

def IsStackSlot : InstructionOperand → Bool
  | StackSlot _ => true
  | _ => false

def IsRegister : InstructionOperand → Bool
  | Register _ => true
  | _ => false

def IsImmediate : InstructionOperand → Bool
  | Immediate _ => true
  | _ => false

/-- `index()` of an operand (meaningful for slots and registers). -/
def index : InstructionOperand → Int
  | StackSlot i => i
  | DoubleStackSlot i => i
  | Register i => i
  | DoubleRegister i => i
  | Immediate _ => 0

end InstructionOperand

/-- `InstructionOperandConverter::ToConstant`: an immediate operand yields
its constant; any other operand kind is a converter contract violation. -/
def ToConstant : InstructionOperand → Except Err Constant
  | InstructionOperand.Immediate c => Except.ok c
  | _ => Except.error Err.unreachable

/-- `Constant::ToInt32`. -/
def Constant.ToInt32 : Constant → Except Err Int
  | Constant.kInt32 v => Except.ok v
  | _ => Except.error Err.unreachable

/-! ## The deoptimization literal pool -/

/-- `CodeGenerator::DefineDeoptimizationLiteral`: linear scan of the pool
for a reference-identical entry (`is_identical_to`); on a hit return its
index, otherwise append the literal and return the old pool size.  Returns
the index together with the updated pool. -/
def DefineDeoptimizationLiteral (pool : List ObjRef) (literal : ObjRef) :
    Nat × List ObjRef :=
  match pool.indexOf? literal with
  | some i => (i, pool)
  | none => (pool.length, pool ++ [literal])

/-- First-seen deduplication, stated from the spec's words ("pool order
equals first-seen order"): scanning the constants left to right, keep each
one the first time it is seen. -/
def firstSeenPool : List ObjRef → List ObjRef → List ObjRef
  | acc, [] => acc
  | acc, c :: cs => firstSeenPool (if c ∈ acc then acc else acc ++ [c]) cs

/-- Interning a whole sequence of constants into the pool, left to right. -/
def internAll (pool : List ObjRef) : List ObjRef → List ObjRef
  | [] => pool
  | c :: cs => internAll (DefineDeoptimizationLiteral pool c).2 cs

/-! ## Safepoints -/

/-- `Safepoint::Kind` is a bitmask; `kSimple` is the empty mask and
`kWithRegisters` the register-tracking bit. -/
def kSimple : Nat := 0

def kWithRegisters : Nat := 1

/-- `Safepoint::DeoptMode`. -/
inductive DeoptMode where
  | kNoLazyDeopt
  | kLazyDeopt
  deriving DecidableEq, Repr

/-- One safepoint table entry: identifier, kind, argument count, deopt
mode, the marked pointer slots and pointer registers, and the
deoptimization pc (absent until the fix-up pass). -/
structure Safepoint where
  id : Nat
  kind : Nat
  arguments : Int
  deopt_mode : DeoptMode
  pointer_slots : List Int
  pointer_registers : List Int
  deoptimization_pc : Option Int
  deriving DecidableEq, Repr

/-- Modelled from the spec: the Safepoint Table Builder accumulates
safepoint entries (identified by stable ids handed out at definition time)
plus the lazy-deoptimization index list, and accepts a patched-in
deoptimization pc per id during the fix-up pass. -/
structure SafepointTableBuilder where
  entries : List Safepoint
  lazy_deopt_indices : List Int
  deriving DecidableEq, Repr

/-- Modelled from the spec: `Register::FromAllocationIndex` maps an
allocation index to an architecture register; the architecture-specific
mapping is external to this core, so registers are named here by their
allocation index. -/
def Register.FromAllocationIndex (index : Int) : Int := index

/-- Modelled from the spec: `DoubleRegister::FromAllocationIndex`,
analogously. -/
def DoubleRegister.FromAllocationIndex (index : Int) : Int := index

/-- The loop body of `CodeGenerator::RecordSafepoint` over the normalized
operands: a stack-slot operand marks its index as a pointer slot; otherwise
a register operand marks a pointer register when the kind has the
`kWithRegisters` bit. -/
def recordPointers (kind : Nat) : Safepoint → List InstructionOperand → Safepoint
  | sp, [] => sp
  | sp, pointer :: rest =>
    let sp :=
      if pointer.IsStackSlot then
        { sp with pointer_slots := sp.pointer_slots ++ [pointer.index] }
      else if pointer.IsRegister && (kind &&& kWithRegisters != 0) then
        { sp with pointer_registers :=
            sp.pointer_registers ++ [Register.FromAllocationIndex pointer.index] }
      else sp
    recordPointers kind sp rest

/-- `CodeGenerator::RecordSafepoint`: define a fresh safepoint of the given
kind, argument count and deopt mode, mark the pointers from the normalized
operand list, and return its id. -/
def RecordSafepoint (builder : SafepointTableBuilder)
    (pointers : List InstructionOperand) (kind : Nat) (arguments : Int)
    (deopt_mode : DeoptMode) : Nat × SafepointTableBuilder :=
  let safepoint : Safepoint :=
    { id := builder.entries.length, kind := kind, arguments := arguments,
      deopt_mode := deopt_mode, pointer_slots := [], pointer_registers := [],
      deoptimization_pc := none }
  let safepoint := recordPointers kind safepoint pointers
  (safepoint.id, { builder with entries := builder.entries ++ [safepoint] })

/-- The stack-slot indices of an operand list, in order (spec phrasing:
the slot indices that must be marked as pointer slots). -/
def stackSlotIndices (pointers : List InstructionOperand) : List Int :=
  pointers.filterMap fun p => match p with
    | InstructionOperand.StackSlot i => some i
    | _ => none

/-- The pointer registers of an operand list, in order (spec phrasing:
the registers that must be marked when register tracking is on). -/
def registerPointers (pointers : List InstructionOperand) : List Int :=
  pointers.filterMap fun p => match p with
    | InstructionOperand.Register i => some (Register.FromAllocationIndex i)
    | _ => none

/-! ## Lazy-deoptimization entries and the fix-up pass -/

/-- A bound label: its position in the emitted byte stream. -/
structure Label where
  pos : Int
  deriving DecidableEq, Repr

/-- `LazyDeoptimizationEntry` (spec: "{after-call byte offset, continuation
label, deopt-target label, owning safepoint id}"), as constructed by
`RecordLazyDeoptimizationEntry`. -/
structure LazyDeoptimizationEntry where
  position_after_call : Int
  continuation : Label
  deoptimization : Label
  safepoint_id : Nat
  deriving DecidableEq, Repr

/-- Modelled from the spec: the Safepoint Table Builder's
`SetDeoptimizationPc(id, pc)` associates the pc with the entry of that id. -/
def SetDeoptimizationPc (builder : SafepointTableBuilder) (id : Nat)
    (pc : Int) : SafepointTableBuilder :=
  { builder with
    entries := builder.entries.map fun sp =>
      if sp.id = id then { sp with deoptimization_pc := some pc } else sp }

/-- `CodeGenerator::UpdateSafepointsWithDeoptimizationPc`: for every
recorded lazy-deoptimization entry, in order, set the owning safepoint's
deoptimization pc to `entry.deoptimization()->pos()`, the bound position of
the deoptimization-target label. -/
def UpdateSafepointsWithDeoptimizationPc (builder : SafepointTableBuilder) :
    List LazyDeoptimizationEntry → SafepointTableBuilder
  | [] => builder
  | entry :: rest =>
      UpdateSafepointsWithDeoptimizationPc
        (SetDeoptimizationPc builder entry.safepoint_id entry.deoptimization.pos)
        rest

/-- The per-safepoint net effect of running the fix-up pass over a list of
entries (proof-side reformulation of the fold above). -/
def applyEntries : List LazyDeoptimizationEntry → Safepoint → Safepoint
  | [], sp => sp
  | entry :: rest, sp =>
      applyEntries rest
        (if sp.id = entry.safepoint_id then
          { sp with deoptimization_pc := some entry.deoptimization.pos }
         else sp)

/-! ## Source positions -/

/-- Modelled from the spec and the source's usage: `SourcePosition`
(defined outside this translation unit) carries a raw int; two distinct
reserved raw values mark the invalid position (the initial value of
`current_source_position_`) and the unknown position, as queried by
`IsInvalid` / `IsUnknown` in `AssembleSourcePosition`. -/
structure SourcePosition where
  raw : Int
  deriving DecidableEq, Repr

def SourcePosition.kUnknownPosition : Int := -1

def SourcePosition.kInvalidPosition : Int := -2

def SourcePosition.Invalid : SourcePosition := ⟨SourcePosition.kInvalidPosition⟩

def SourcePosition.Unknown : SourcePosition := ⟨SourcePosition.kUnknownPosition⟩

def SourcePosition.IsInvalid (p : SourcePosition) : Bool :=
  p.raw = SourcePosition.kInvalidPosition

def SourcePosition.IsUnknown (p : SourcePosition) : Bool :=
  p.raw = SourcePosition.kUnknownPosition

/-- The state `AssembleSourcePosition` works on: the last recorded
position (`current_source_position_`) and the emitter's record of the raw
positions forwarded to it (`positions_recorder()->RecordPosition`). -/
structure SourcePositionState where
  current_source_position : SourcePosition
  recorded_positions : List Int
  deriving DecidableEq, Repr

/-- `CodeGenerator::AssembleSourcePosition`: a position equal to the last
recorded one returns immediately; an invalid position is a fatal check; a
known position is forwarded to the emitter; finally the position becomes
the new `current_source_position_`. -/
def AssembleSourcePosition (s : SourcePositionState)
    (source_position : SourcePosition) : Except Err SourcePositionState :=
  if source_position = s.current_source_position then Except.ok s
  else if source_position.IsInvalid then Except.error Err.dcheckFailed
  else if ¬ source_position.IsUnknown then
    Except.ok { current_source_position := source_position,
                recorded_positions := s.recorded_positions ++ [source_position.raw] }
  else Except.ok { s with current_source_position := source_position }

/-! ## Instructions and the instruction sequence -/

/-- `FrameStateDescriptor`: bailout id, total value count, parameter
count. -/
structure FrameStateDescriptor where
  bailout_id : Int
  size : Nat
  parameters_count : Nat
  deriving DecidableEq, Repr

/-- The slice of `Instruction` that `AddSafepointAndDeopt` and its callees
read: the decoded `MiscField` of the opcode (the call descriptor's
deoptimization-support flags), the normalized pointer map, and the input
operand list. -/
structure Instruction where
  miscFlags : Nat
  pointer_map : List InstructionOperand
  inputs : List InstructionOperand
  deriving DecidableEq, Repr

/-- `Instruction::InputAt`.  The source asserts the index is in range; the
claims only exercise in-range reads, and an out-of-range read is modelled
by a dummy operand. -/
def Instruction.InputAt (instr : Instruction) (i : Nat) : InstructionOperand :=
  instr.inputs.getD i (InstructionOperand.Immediate (Constant.kInt32 0))

def Instruction.InputCount (instr : Instruction) : Nat := instr.inputs.length

/-- The slice of `InstructionSequence` used here: the frame-state
descriptors (`GetDeoptimizationEntry`, indexed by deoptimization id) and
the block-id-to-label map (`GetLabel`). -/
structure InstructionSequence where
  descriptors : List FrameStateDescriptor
  labels : Int → Label

def InstructionSequence.GetDeoptimizationEntryCount
    (code : InstructionSequence) : Nat :=
  code.descriptors.length

/-! ## Deoptimization translations -/

/-- Modelled from the spec: `Translation::kSelfLiteralId`, the sentinel
literal id standing for the compiled function itself (defined in the
external deoptimizer header). -/
def kSelfLiteralId : Int := -239

/-- One record of the translation byte stream, as the spec describes it:
a frame marker followed by value-store records.  (The self-delimiting byte
encoding itself belongs to the external translation buffer.) -/
inductive TranslationRecord where
  | BeginJSFrame (bailout_id : Int) (literal_id : Int) (height : Int)
  | StoreStackSlot (index : Int)
  | StoreDoubleStackSlot (index : Int)
  | StoreRegister (reg : Int)
  | StoreDoubleRegister (reg : Int)
  | StoreLiteral (literal_id : Nat)
  deriving DecidableEq, Repr

/-- Modelled from the spec: the heap factory is the external heap/GC
collaborator supplying opaque handles compared by identity; a heap
allocation returns a fresh object whose handle is identical to no handle
seen before. -/
structure Factory where
  next_object : Nat
  deriving DecidableEq, Repr

def Factory.allocate (f : Factory) : ObjRef × Factory :=
  (ObjRef.heap f.next_object, ⟨f.next_object + 1⟩)

/-- Modelled from the spec: the external `Factory::NewNumberFromInt`.  A
value in Smi range yields the value-identical Smi handle — no heap object
is allocated, so two calls with equal Smi-range values return identical
handles — while an out-of-range value allocates a fresh heap number. -/
def Factory.NewNumberFromInt (f : Factory) (value : Int) : ObjRef × Factory :=
  if Smi.IsValid value then (ObjRef.smi value, f) else f.allocate

/-- Modelled from the spec: the external `Factory::NewHeapNumber` always
allocates a fresh heap number. -/
def Factory.NewHeapNumber (f : Factory) (_value : Int) : ObjRef × Factory :=
  f.allocate

/-- The deoptimization side of the code generator's state: the shared
translation buffer, the literal pool, the per-deoptimization-id
`DeoptimizationState` slots (the translation start index once built), and
the factory. -/
structure DeoptTranslationState where
  translations : List TranslationRecord
  deoptimization_literals : List ObjRef
  deoptimization_states : List (Option Nat)
  factory : Factory
  deriving DecidableEq, Repr

/-- The constant-classification switch inside `AddTranslationForOperand`:
an `Int32` constant goes through `NewNumberFromInt`, a `Float64` constant
through `NewHeapNumber`, a heap-object constant passes its handle through
(`ToHeapObject`), and any other constant kind is `UNREACHABLE`. -/
def constantObject (f : Factory) : Constant → Except Err (ObjRef × Factory)
  | Constant.kInt32 v => Except.ok (f.NewNumberFromInt v)
  | Constant.kFloat64 bits => Except.ok (f.NewHeapNumber bits)
  | Constant.kHeapObject ref => Except.ok (ref, f)
  | _ => Except.error Err.unreachable

/-- `CodeGenerator::AddTranslationForOperand`: append one value-store
record for the operand — by slot index for (double) stack slots, by
register for (double) registers, and by interned literal index for
immediates. -/
def AddTranslationForOperand (s : DeoptTranslationState)
    (op : InstructionOperand) : Except Err DeoptTranslationState :=
  match op with
  | InstructionOperand.StackSlot i =>
      Except.ok { s with translations :=
        s.translations ++ [TranslationRecord.StoreStackSlot i] }
  | InstructionOperand.DoubleStackSlot i =>
      Except.ok { s with translations :=
        s.translations ++ [TranslationRecord.StoreDoubleStackSlot i] }
  | InstructionOperand.Register i =>
      Except.ok { s with translations :=
        s.translations ++
          [TranslationRecord.StoreRegister (Register.FromAllocationIndex i)] }
  | InstructionOperand.DoubleRegister i =>
      Except.ok { s with translations :=
        s.translations ++
          [TranslationRecord.StoreDoubleRegister
            (DoubleRegister.FromAllocationIndex i)] }
  | InstructionOperand.Immediate constant =>
      match constantObject s.factory constant with
      | Except.error e => Except.error e
      | Except.ok (constant_object, factory) =>
          let r := DefineDeoptimizationLiteral s.deoptimization_literals
            constant_object
          Except.ok
            { s with
              factory := factory,
              deoptimization_literals := r.2,
              translations :=
                s.translations ++ [TranslationRecord.StoreLiteral r.1] }

/-- The net effect of the immediate branch of `AddTranslationForOperand`
(proof-side): intern the classified constant's handle, append the
literal-store record, and adopt the factory state the classification
returned. -/
def internStep (s : DeoptTranslationState) (obj : ObjRef) (f : Factory) :
    DeoptTranslationState :=
  { s with
    factory := f,
    deoptimization_literals :=
      (DefineDeoptimizationLiteral s.deoptimization_literals obj).2,
    translations := s.translations ++
      [TranslationRecord.StoreLiteral
        (DefineDeoptimizationLiteral s.deoptimization_literals obj).1] }

/-- The value loop of `BuildTranslation`: add one store record per operand,
left to right. -/
def addOperands : DeoptTranslationState → List InstructionOperand →
    Except Err DeoptTranslationState
  | s, [] => Except.ok s
  | s, op :: rest =>
    match AddTranslationForOperand s op with
    | Except.error e => Except.error e
    | Except.ok s => addOperands s rest

/-- `CodeGenerator::BuildTranslation`: checks the `DeoptimizationState`
slot is still unbuilt (`DCHECK_EQ(NULL, ...)`), begins a JS frame marker
with the descriptor's bailout id and `size - parameters_count`, adds one
record per value operand read from the instruction's inputs starting at
`first_argument_index`, and fills the slot with the translation's start
index. -/
def BuildTranslation (code : InstructionSequence) (s : DeoptTranslationState)
    (instr : Instruction) (first_argument_index : Nat)
    (deoptimization_id : Nat) : Except Err DeoptTranslationState :=
  match s.deoptimization_states[deoptimization_id]? with
  | none => Except.error Err.outOfRange
  | some (some _) => Except.error Err.dcheckFailed
  | some none =>
    match code.descriptors[deoptimization_id]? with
    | none => Except.error Err.outOfRange
    | some descriptor =>
      match addOperands
          { s with
            translations := s.translations ++
              [TranslationRecord.BeginJSFrame descriptor.bailout_id kSelfLiteralId
                ((descriptor.size : Int) - (descriptor.parameters_count : Int))] }
          ((List.range descriptor.size).map
            (fun i => instr.InputAt (i + first_argument_index))) with
      | Except.error e => Except.error e
      | Except.ok s₂ =>
        Except.ok
          { s₂ with
            deoptimization_states :=
              s₂.deoptimization_states.set deoptimization_id
                (some s.translations.length) }

/-- The value-store record demanded by the spec for one operand: slot
stores for (double) stack slots, register stores for (double) registers,
and a literal-index store (of some interned index) for immediates. -/
def matchesOperand : InstructionOperand → TranslationRecord → Prop
  | InstructionOperand.StackSlot i, r => r = TranslationRecord.StoreStackSlot i
  | InstructionOperand.DoubleStackSlot i, r =>
      r = TranslationRecord.StoreDoubleStackSlot i
  | InstructionOperand.Register i, r =>
      r = TranslationRecord.StoreRegister (Register.FromAllocationIndex i)
  | InstructionOperand.DoubleRegister i, r =>
      r = TranslationRecord.StoreDoubleRegister (DoubleRegister.FromAllocationIndex i)
  | InstructionOperand.Immediate _, r =>
      ∃ literal_id, r = TranslationRecord.StoreLiteral literal_id

/-! ## The call-site driver path -/

/-- Modelled from the spec: the two `CallDescriptor::DeoptimizationSupport`
flag bits decoded from the instruction's `MiscField` (their values live in
the external linkage header; only their distinctness matters here). -/
def kLazyDeoptimization : Nat := 1

def kNeedsFrameState : Nat := 2

/-- The code generator state threaded through the call-site path: the
emitter's current offset, the safepoint table builder, the
lazy-deoptimization entry registry, and the deoptimization translation
state. -/
structure CodeGenState where
  masm_pc : Int
  safepoints : SafepointTableBuilder
  lazy_deoptimization_entries : List LazyDeoptimizationEntry
  deopt : DeoptTranslationState
  deriving DecidableEq, Repr

/-- `CodeGenerator::RecordLazyDeoptimizationEntry`: bind an `after_call`
label at the current offset, read the last two inputs as the continuation
and deoptimization blocks (`InputBlock` goes through the converter's
constant path), resolve them to labels, and push the entry. -/
def RecordLazyDeoptimizationEntry (code : InstructionSequence)
    (s : CodeGenState) (instr : Instruction) (safepoint_id : Nat) :
    Except Err CodeGenState :=
  match ToConstant (instr.InputAt (instr.InputCount - 2)) with
  | Except.error e => Except.error e
  | Except.ok cont_constant =>
    match cont_constant.ToInt32 with
    | Except.error e => Except.error e
    | Except.ok cont_block =>
      match ToConstant (instr.InputAt (instr.InputCount - 1)) with
      | Except.error e => Except.error e
      | Except.ok deopt_constant =>
        match deopt_constant.ToInt32 with
        | Except.error e => Except.error e
        | Except.ok deopt_block =>
          Except.ok
            { s with
              lazy_deoptimization_entries :=
                s.lazy_deoptimization_entries ++
                  [{ position_after_call := s.masm_pc,
                     continuation := code.labels cont_block,
                     deoptimization := code.labels deopt_block,
                     safepoint_id := safepoint_id }] }

/-- The frame-state branch of `AddSafepointAndDeopt`: read the
deoptimization id from input 1, check (debug) that every frame-state value
operand, starting at input 2, is a stack slot or an immediate, build the
translation, and record the lazy deoptimization index with the safepoint
table builder. -/
def frameStateStep (code : InstructionSequence) (s : CodeGenState)
    (instr : Instruction) : Except Err CodeGenState :=
  match ToConstant (instr.InputAt 1) with
  | Except.error e => Except.error e
  | Except.ok c =>
    match c.ToInt32 with
    | Except.error e => Except.error e
    | Except.ok deoptimization_id =>
      if deoptimization_id < 0 then Except.error Err.outOfRange
      else
        match code.descriptors[deoptimization_id.toNat]? with
        | none => Except.error Err.outOfRange
        | some descriptor =>
          if ((List.range descriptor.size).map
                (fun i => instr.InputAt (i + 2))).all
              (fun op => op.IsStackSlot || op.IsImmediate) then
            match BuildTranslation code s.deopt instr 2 deoptimization_id.toNat with
            | Except.error e => Except.error e
            | Except.ok d =>
              Except.ok
                { s with
                  deopt := d,
                  safepoints :=
                    { s.safepoints with
                      lazy_deopt_indices :=
                        s.safepoints.lazy_deopt_indices ++ [deoptimization_id] } }
          else Except.error Err.checkFailed

/-- `CodeGenerator::AddSafepointAndDeopt`: record a safepoint of kind
`kSimple` with 0 arguments (deopt mode `kLazyDeopt` exactly when the
needs-frame-state bit is set), record a lazy-deoptimization entry when the
lazy-deoptimization bit is set, and run the frame-state branch when the
needs-frame-state bit is set. -/
def AddSafepointAndDeopt (code : InstructionSequence) (s : CodeGenState)
    (instr : Instruction) : Except Err CodeGenState :=
  let deopt := instr.miscFlags
  let needs_frame_state := deopt &&& kNeedsFrameState ≠ 0
  let r := RecordSafepoint s.safepoints instr.pointer_map kSimple 0
    (if needs_frame_state then DeoptMode.kLazyDeopt else DeoptMode.kNoLazyDeopt)
  let safepoint_id := r.1
  let s := { s with safepoints := r.2 }
  match (if deopt &&& kLazyDeoptimization ≠ 0 then
           RecordLazyDeoptimizationEntry code s instr safepoint_id
         else Except.ok s) with
  | Except.error e => Except.error e
  | Except.ok s =>
    if needs_frame_state then frameStateStep code s instr else Except.ok s

/-! ## Deoptimization metadata assembly -/

/-- The slice of `CompilationInfo` read by `PopulateDeoptimizationData`. -/
structure CompilationInfo where
  optimization_id : Int
  is_optimizing : Bool
  shared_info : ObjRef
  deriving DecidableEq, Repr

/-- `DeoptimizationInputData`: the produced metadata blob.  The
shared-function-info field holds a heap reference when optimizing and the
`Smi 0` sentinel (modelled as `none`) otherwise. -/
structure DeoptimizationInputData where
  translation_byte_array : List TranslationRecord
  inlined_function_count : Int
  optimization_id : Int
  shared_function_info : Option ObjRef
  literal_array : List ObjRef
  osr_ast_id : Int
  osr_pc_offset : Int
  ast_ids : List Int
  translation_indices : List Int
  arguments_stack_heights : List Int
  pcs : List Int
  deriving DecidableEq, Repr

/-- The produced code object, insofar as `PopulateDeoptimizationData`
touches it: its deoptimization data, absent until set. -/
structure CodeObject where
  deoptimization_data : Option DeoptimizationInputData
  deriving DecidableEq, Repr

/-- The per-entry loop of `PopulateDeoptimizationData`: for each
deoptimization id, pair the descriptor's bailout id with the built
translation start index, with `CHECK_NE(NULL, ...)` on the
`DeoptimizationState` slot. -/
def populateRows : List FrameStateDescriptor → List (Option Nat) →
    Except Err (List (Int × Nat))
  | [], _ => Except.ok []
  | _ :: _, [] => Except.error Err.outOfRange
  | descriptor :: ds, state :: sts =>
    match state with
    | none => Except.error Err.checkFailed
    | some translation_id =>
      match populateRows ds sts with
      | Except.error e => Except.error e
      | Except.ok rows => Except.ok ((descriptor.bailout_id, translation_id) :: rows)

/-- `CodeGenerator::PopulateDeoptimizationData`: with zero deoptimization
entries and zero lazy-deopt entries, return at once leaving the code
object untouched; otherwise assemble the metadata blob — translation byte
array, literal array, OSR sentinels (`BailoutId::None()`, modelled by its
int value -1, and pc offset -1), and the per-id table with bailout id,
translation start index, arguments-stack-height placeholder 0 and pc
placeholder -1 — and store it on the code object. -/
def PopulateDeoptimizationData (info : CompilationInfo)
    (code : InstructionSequence) (s : DeoptTranslationState)
    (lazy_deoptimization_entries : List LazyDeoptimizationEntry)
    (code_object : CodeObject) : Except Err CodeObject :=
  let deopt_count := code.GetDeoptimizationEntryCount
  let patch_count := lazy_deoptimization_entries.length
  if patch_count = 0 ∧ deopt_count = 0 then Except.ok code_object
  else
    match populateRows code.descriptors s.deoptimization_states with
    | Except.error e => Except.error e
    | Except.ok rows =>
      let data : DeoptimizationInputData :=
        { translation_byte_array := s.translations,
          inlined_function_count := 0,
          optimization_id := info.optimization_id,
          shared_function_info :=
            if info.is_optimizing then some info.shared_info else none,
          literal_array := s.deoptimization_literals,
          osr_ast_id := -1,
          osr_pc_offset := -1,
          ast_ids := rows.map Prod.fst,
          translation_indices := rows.map (fun row => (row.2 : Int)),
          arguments_stack_heights := rows.map (fun _ => 0),
          pcs := rows.map (fun _ => -1) }
      Except.ok { code_object with deoptimization_data := some data }

/-! ## Concrete scenarios used by witnesses and counterexamples -/

/-- An empty deoptimization translation state with one unbuilt slot. -/
def emptyDeopt1 : DeoptTranslationState :=
  { translations := [], deoptimization_literals := [],
    deoptimization_states := [none], factory := { next_object := 0 } }

/-- An empty deoptimization translation state with no slots. -/
def emptyDeopt0 : DeoptTranslationState :=
  { translations := [], deoptimization_literals := [],
    deoptimization_states := [], factory := { next_object := 0 } }

/-- C1 scenario: one safepoint, id 0, awaiting its deoptimization pc. -/
def c1Table : SafepointTableBuilder :=
  { entries := [{ id := 0, kind := kSimple, arguments := 0,
                  deopt_mode := DeoptMode.kLazyDeopt, pointer_slots := [],
                  pointer_registers := [], deoptimization_pc := none }],
    lazy_deopt_indices := [] }

/-- C1 scenario: a call at offset 10 whose continuation block 1 is bound at
offset 20 and whose deoptimization block 2 is bound at offset 42. -/
def c1Code : InstructionSequence :=
  { descriptors := [],
    labels := fun b => if b = 1 then ⟨20⟩ else if b = 2 then ⟨42⟩ else ⟨0⟩ }

def c1Instr : Instruction :=
  { miscFlags := 0, pointer_map := [],
    inputs := [InstructionOperand.Immediate (Constant.kInt32 1),
               InstructionOperand.Immediate (Constant.kInt32 2)] }

def c1State : CodeGenState :=
  { masm_pc := 10, safepoints := c1Table,
    lazy_deoptimization_entries := [], deopt := emptyDeopt0 }

/-- The entry `RecordLazyDeoptimizationEntry` produces in the C1 scenario:
after-call offset 10, continuation label at 20, deoptimization label at
42, owning safepoint 0. -/
def c1Entry : LazyDeoptimizationEntry :=
  { position_after_call := 10, continuation := ⟨20⟩,
    deoptimization := ⟨42⟩, safepoint_id := 0 }

/-- C2/C4 scenario: one frame-state descriptor with bailout id 7, three
values, one parameter. -/
def c2Code : InstructionSequence :=
  { descriptors := [⟨7, 3, 1⟩], labels := fun _ => ⟨0⟩ }

/-- C2/C4 scenario: a call instruction whose frame-state values (inputs
2..4) are two stack slots and one Int32 immediate. -/
def c2Instr : Instruction :=
  { miscFlags := 3,
    pointer_map := [InstructionOperand.StackSlot 1, InstructionOperand.Register 0],
    inputs := [InstructionOperand.Immediate (Constant.kHeapObject (ObjRef.heap 99)),
               InstructionOperand.Immediate (Constant.kInt32 0),
               InstructionOperand.StackSlot 4,
               InstructionOperand.StackSlot 5,
               InstructionOperand.Immediate (Constant.kInt32 9)] }

/-- The state `BuildTranslation` produces in the C2/C4 scenario. -/
def c2Result : DeoptTranslationState :=
  { translations := [TranslationRecord.BeginJSFrame 7 (-239) 2,
                     TranslationRecord.StoreStackSlot 4,
                     TranslationRecord.StoreStackSlot 5,
                     TranslationRecord.StoreLiteral 0],
    deoptimization_literals := [ObjRef.smi 9],
    deoptimization_states := [some 0],
    factory := { next_object := 0 } }

/-- C4 scenario: a state whose only `DeoptimizationState` slot is already
built. -/
def c4Filled : DeoptTranslationState :=
  { translations := [], deoptimization_literals := [],
    deoptimization_states := [some 3], factory := { next_object := 0 } }

/-- C10 scenario: state after interning one freshly allocated heap
number. -/
def c10s₁ : DeoptTranslationState :=
  { translations := [TranslationRecord.StoreLiteral 0],
    deoptimization_literals := [ObjRef.heap 0], deoptimization_states := [],
    factory := { next_object := 1 } }

/-- C10 scenario: state after interning two freshly allocated heap
numbers. -/
def c10s₂ : DeoptTranslationState :=
  { translations := [TranslationRecord.StoreLiteral 0,
                     TranslationRecord.StoreLiteral 1],
    deoptimization_literals := [ObjRef.heap 0, ObjRef.heap 1],
    deoptimization_states := [],
    factory := { next_object := 2 } }

/-- C10 scenario: state after interning the Smi handle of 9 once. -/
def c10a₁ : DeoptTranslationState :=
  { translations := [TranslationRecord.StoreLiteral 0],
    deoptimization_literals := [ObjRef.smi 9], deoptimization_states := [],
    factory := { next_object := 0 } }

/-- C10 scenario: state after interning the Smi handle of 9 twice. -/
def c10a₂ : DeoptTranslationState :=
  { translations := [TranslationRecord.StoreLiteral 0,
                     TranslationRecord.StoreLiteral 0],
    deoptimization_literals := [ObjRef.smi 9], deoptimization_states := [],
    factory := { next_object := 0 } }

/-- C10 scenario: state after interning the heap-object handle 5 once. -/
def c10h₁ : DeoptTranslationState :=
  { translations := [TranslationRecord.StoreLiteral 0],
    deoptimization_literals := [ObjRef.heap 5], deoptimization_states := [],
    factory := { next_object := 0 } }

/-- C10 scenario: state after interning the heap-object handle 5 twice. -/
def c10h₂ : DeoptTranslationState :=
  { translations := [TranslationRecord.StoreLiteral 0,
                     TranslationRecord.StoreLiteral 0],
    deoptimization_literals := [ObjRef.heap 5], deoptimization_states := [],
    factory := { next_object := 0 } }

/-- C6/C7 scenario: compilation info. -/
def c7Info : CompilationInfo :=
  { optimization_id := 9, is_optimizing := false,
    shared_info := ObjRef.heap 0 }

/-- C6 scenario: an instruction sequence with no frame states. -/
def c6Code : InstructionSequence :=
  { descriptors := [], labels := fun _ => ⟨0⟩ }

/-- C7 scenario: one frame-state descriptor, bailout id 7. -/
def c7Code : InstructionSequence :=
  { descriptors := [⟨7, 0, 0⟩], labels := fun _ => ⟨0⟩ }

/-- C7 scenario: the slot for deoptimization id 0 was built with
translation start index 4. -/
def c7State : DeoptTranslationState :=
  { translations := [], deoptimization_literals := [],
    deoptimization_states := [some 4], factory := { next_object := 0 } }

/-- C7 scenario: the metadata blob `PopulateDeoptimizationData` produces. -/
def c7Data : DeoptimizationInputData :=
  { translation_byte_array := [], inlined_function_count := 0,
    optimization_id := 9, shared_function_info := none, literal_array := [],
    osr_ast_id := -1, osr_pc_offset := -1, ast_ids := [7],
    translation_indices := [4], arguments_stack_heights := [0], pcs := [-1] }

/-- C9 scenario: one frame-state descriptor (bailout 7, one value, no
parameters); continuation block 1 bound at 20, deoptimization block 2
bound at 42. -/
def c9Code : InstructionSequence :=
  { descriptors := [⟨7, 1, 0⟩],
    labels := fun b => if b = 1 then ⟨20⟩ else if b = 2 then ⟨42⟩ else ⟨0⟩ }

/-- C9 scenario: a call with both deoptimization-support bits set, a
pointer map with one stack slot and one register, the deoptimization id 0
at input 1, one stack-slot frame-state value at input 2, and the
continuation and deoptimization blocks as the last two inputs. -/
def c9Instr : Instruction :=
  { miscFlags := 3,
    pointer_map := [InstructionOperand.StackSlot 1, InstructionOperand.Register 0],
    inputs := [InstructionOperand.Immediate (Constant.kHeapObject (ObjRef.heap 99)),
               InstructionOperand.Immediate (Constant.kInt32 0),
               InstructionOperand.StackSlot 4,
               InstructionOperand.Immediate (Constant.kInt32 1),
               InstructionOperand.Immediate (Constant.kInt32 2)] }

def c9State : CodeGenState :=
  { masm_pc := 10, safepoints := { entries := [], lazy_deopt_indices := [] },
    lazy_deoptimization_entries := [], deopt := emptyDeopt1 }

/-- The state `AddSafepointAndDeopt` produces in the C9 scenario. -/
def c9Result : CodeGenState :=
  { masm_pc := 10,
    safepoints :=
      { entries := [{ id := 0, kind := 0, arguments := 0,
                      deopt_mode := DeoptMode.kLazyDeopt,
                      pointer_slots := [1], pointer_registers := [],
                      deoptimization_pc := none }],
        lazy_deopt_indices := [0] },
    lazy_deoptimization_entries := [{ position_after_call := 10,
                                      continuation := ⟨20⟩,
                                      deoptimization := ⟨42⟩,
                                      safepoint_id := 0 }],
    deopt := { translations := [TranslationRecord.BeginJSFrame 7 (-239) 1,
                                TranslationRecord.StoreStackSlot 4],
               deoptimization_literals := [],
               deoptimization_states := [some 0],
               factory := { next_object := 0 } } }

end V8

namespace V8

/-! ## Theorems: the literal pool (C3) -/

theorem indexOf?_none_iff_not_mem {l : List ObjRef} {a : ObjRef} :
    l.indexOf? a = none ↔ a ∉ l := by
  rw [List.indexOf?_eq_none_iff]
  simp only [beq_iff_eq]
  constructor
  · intro h ha
    exact h a ha rfl
  · intro h x hx hxa
    exact h (hxa ▸ hx)

theorem indexOf?_append_self {l : List ObjRef} {a : ObjRef} (h : a ∉ l) :
    (l ++ [a]).indexOf? a = some l.length := by
  rw [List.indexOf?, List.findIdx?_append]
  rw [show (l.findIdx? (· == a)) = none from indexOf?_none_iff_not_mem.mpr h]
  simp [List.findIdx?_cons]

theorem DefineDeoptimizationLiteral_not_mem {pool : List ObjRef} {c : ObjRef}
    (h : c ∉ pool) :
    DefineDeoptimizationLiteral pool c = (pool.length, pool ++ [c]) := by
  unfold DefineDeoptimizationLiteral
  rw [indexOf?_none_iff_not_mem.mpr h]

theorem DefineDeoptimizationLiteral_idem (pool : List ObjRef) (c : ObjRef) :
    DefineDeoptimizationLiteral (DefineDeoptimizationLiteral pool c).2 c =
      DefineDeoptimizationLiteral pool c := by
  unfold DefineDeoptimizationLiteral
  cases h : pool.indexOf? c with
  | some i => simp [h]
  | none =>
    have hmem : c ∉ pool := indexOf?_none_iff_not_mem.mp h
    simp [indexOf?_append_self hmem]

theorem DefineDeoptimizationLiteral_getElem (pool : List ObjRef) (c : ObjRef) :
    ((DefineDeoptimizationLiteral pool c).2)[(DefineDeoptimizationLiteral pool c).1]? =
      some c := by
  unfold DefineDeoptimizationLiteral
  cases h : pool.indexOf? c with
  | some i =>
    simp only
    rw [List.indexOf?] at h
    have := List.findIdx?_eq_some_iff_getElem.mp h
    obtain ⟨hlt, heq, -⟩ := this
    have : pool[i] = c := by simpa using heq
    simp [List.getElem?_eq_getElem hlt, this]
  | none =>
    simp only
    rw [List.getElem?_append_right (Nat.le_refl _)]
    simp

theorem DefineDeoptimizationLiteral_fst_lt (pool : List ObjRef) (c : ObjRef) :
    (DefineDeoptimizationLiteral pool c).1 <
      (DefineDeoptimizationLiteral pool c).2.length := by
  have h := DefineDeoptimizationLiteral_getElem pool c
  exact List.getElem?_eq_some.mp h |>.1

theorem DefineDeoptimizationLiteral_extends (pool : List ObjRef) (c : ObjRef) :
    ∃ t, (DefineDeoptimizationLiteral pool c).2 = pool ++ t := by
  unfold DefineDeoptimizationLiteral
  cases h : pool.indexOf? c with
  | some i => exact ⟨[], by simp⟩
  | none => exact ⟨[c], rfl⟩

theorem DefineDeoptimizationLiteral_snd_mem (pool : List ObjRef) (c : ObjRef) :
    (DefineDeoptimizationLiteral pool c).2 =
      if c ∈ pool then pool else pool ++ [c] := by
  unfold DefineDeoptimizationLiteral
  cases h : pool.indexOf? c with
  | some i =>
    have : c ∈ pool := by
      by_contra hmem
      rw [indexOf?_none_iff_not_mem.mpr hmem] at h
      exact Option.noConfusion h
    simp [this]
  | none =>
    have : c ∉ pool := indexOf?_none_iff_not_mem.mp h
    simp [this]

theorem internAll_eq_firstSeenPool (cs : List ObjRef) (pool : List ObjRef) :
    internAll pool cs = firstSeenPool pool cs := by
  induction cs generalizing pool with
  | nil => rfl
  | cons c cs ih =>
    rw [internAll, firstSeenPool, DefineDeoptimizationLiteral_snd_mem, ih]

/-- Claim C3: `DefineDeoptimizationLiteral` deduplicates by reference
identity: interning the same constant twice returns the same index both
times (and leaves the pool unchanged the second time); interning two
distinct constants returns two distinct indices; and the pool produced by
interning any sequence of constants is exactly the sequence's first-seen
deduplication, so pool order equals first-seen order. -/
theorem claim_C3_define_literal_dedup :
    (∀ pool c,
      DefineDeoptimizationLiteral (DefineDeoptimizationLiteral pool c).2 c =
        DefineDeoptimizationLiteral pool c) ∧
    (∀ pool a b, a ≠ b →
      (DefineDeoptimizationLiteral (DefineDeoptimizationLiteral pool a).2 b).1 ≠
        (DefineDeoptimizationLiteral pool a).1) ∧
    (∀ cs, internAll [] cs = firstSeenPool [] cs) := by
  refine ⟨DefineDeoptimizationLiteral_idem,
    ?_, fun cs => internAll_eq_firstSeenPool cs []⟩
  intro pool a b hab
  set r1 := DefineDeoptimizationLiteral pool a with hr1
  set r2 := DefineDeoptimizationLiteral r1.2 b with hr2
  intro hEq
  have h1 : r1.2[r1.1]? = some a :=
    DefineDeoptimizationLiteral_getElem pool a
  have h2 : r2.2[r2.1]? = some b :=
    DefineDeoptimizationLiteral_getElem r1.2 b
  have hlt : r1.1 < r1.2.length := DefineDeoptimizationLiteral_fst_lt pool a
  obtain ⟨t, ht⟩ := DefineDeoptimizationLiteral_extends r1.2 b
  rw [hEq, ht, List.getElem?_append_left hlt, h1] at h2
  exact hab (Option.some.inj h2)

/-- Witness for C3 at concrete inputs. -/
theorem claim_C3_witness :
    (DefineDeoptimizationLiteral
        (DefineDeoptimizationLiteral [] (ObjRef.heap 5)).2 (ObjRef.heap 5) =
      DefineDeoptimizationLiteral [] (ObjRef.heap 5)) ∧
    ((DefineDeoptimizationLiteral
        (DefineDeoptimizationLiteral [] (ObjRef.heap 5)).2 (ObjRef.heap 7)).1 ≠
      (DefineDeoptimizationLiteral [] (ObjRef.heap 5)).1) ∧
    (internAll [] [ObjRef.heap 5, ObjRef.heap 7, ObjRef.heap 5, ObjRef.heap 9] =
      firstSeenPool []
        [ObjRef.heap 5, ObjRef.heap 7, ObjRef.heap 5, ObjRef.heap 9]) :=
  ⟨claim_C3_define_literal_dedup.1 [] (ObjRef.heap 5),
   claim_C3_define_literal_dedup.2.1 [] (ObjRef.heap 5) (ObjRef.heap 7)
     (by decide),
   claim_C3_define_literal_dedup.2.2
     [ObjRef.heap 5, ObjRef.heap 7, ObjRef.heap 5, ObjRef.heap 9]⟩

/-! ## Theorems: safepoint recording (C5) -/

theorem recordPointers_spec (kind : Nat) (sp : Safepoint)
    (pointers : List InstructionOperand) :
    recordPointers kind sp pointers =
      { sp with
        pointer_slots := sp.pointer_slots ++ stackSlotIndices pointers,
        pointer_registers := sp.pointer_registers ++
          (if kind &&& kWithRegisters ≠ 0 then registerPointers pointers
           else []) } := by
  induction pointers generalizing sp with
  | nil => simp [recordPointers, stackSlotIndices, registerPointers]
  | cons p rest ih =>
    cases p <;> by_cases hbit : kind &&& kWithRegisters ≠ 0 <;>
      simp [recordPointers, InstructionOperand.IsStackSlot,
        InstructionOperand.IsRegister, InstructionOperand.index, ih,
        stackSlotIndices, registerPointers, hbit, bne_iff_ne]

theorem RecordSafepoint_spec (builder : SafepointTableBuilder)
    (pointers : List InstructionOperand) (kind : Nat) (arguments : Int)
    (deopt_mode : DeoptMode) :
    ∃ sp : Safepoint,
      (RecordSafepoint builder pointers kind arguments deopt_mode).2.entries =
        builder.entries ++ [sp] ∧
      (RecordSafepoint builder pointers kind arguments deopt_mode).2.lazy_deopt_indices =
        builder.lazy_deopt_indices ∧
      (RecordSafepoint builder pointers kind arguments deopt_mode).1 = sp.id ∧
      sp.pointer_slots = stackSlotIndices pointers ∧
      sp.pointer_registers =
        (if kind &&& kWithRegisters ≠ 0 then registerPointers pointers
         else []) ∧
      sp.kind = kind ∧ sp.arguments = arguments ∧
      sp.deopt_mode = deopt_mode := by
  refine ⟨_, rfl, rfl, rfl, ?_⟩
  rw [recordPointers_spec]
  exact ⟨by simp, by simp, rfl, rfl, rfl⟩

/-- Claim C5: `RecordSafepoint` appends exactly one safepoint; its pointer
slots are exactly the indices of the stack-slot operands of the normalized
live set, regardless of the kind; its pointer registers are exactly the
registers of the register operands when the kind carries the
`kWithRegisters` bit, and empty otherwise — in particular with kind
`kSimple` no register is marked even when the live set contains register
operands. -/
theorem claim_C5_record_safepoint (builder : SafepointTableBuilder)
    (pointers : List InstructionOperand) (kind : Nat) (arguments : Int)
    (deopt_mode : DeoptMode) :
    ∃ sp : Safepoint,
      (RecordSafepoint builder pointers kind arguments deopt_mode).2.entries =
        builder.entries ++ [sp] ∧
      (RecordSafepoint builder pointers kind arguments deopt_mode).1 = sp.id ∧
      sp.pointer_slots = stackSlotIndices pointers ∧
      sp.pointer_registers =
        (if kind &&& kWithRegisters ≠ 0 then registerPointers pointers
         else []) ∧
      (kind = kSimple → sp.pointer_registers = []) ∧
      sp.kind = kind ∧ sp.arguments = arguments ∧
      sp.deopt_mode = deopt_mode := by
  obtain ⟨sp, h1, -, h3, h4, h5, h6, h7, h8⟩ :=
    RecordSafepoint_spec builder pointers kind arguments deopt_mode
  refine ⟨sp, h1, h3, h4, h5, ?_, h6, h7, h8⟩
  intro hk
  subst hk
  rw [h5]
  simp [kSimple]

/-- Witness for C5 at a concrete live set containing a stack slot and a
register, recorded with kind `kSimple`. -/
theorem claim_C5_witness :
    ∃ sp : Safepoint,
      (RecordSafepoint ⟨[], []⟩
          [InstructionOperand.StackSlot 3, InstructionOperand.Register 2]
          kSimple 0 DeoptMode.kNoLazyDeopt).2.entries =
        ([] : List Safepoint) ++ [sp] ∧
      (RecordSafepoint ⟨[], []⟩
          [InstructionOperand.StackSlot 3, InstructionOperand.Register 2]
          kSimple 0 DeoptMode.kNoLazyDeopt).1 = sp.id ∧
      sp.pointer_slots = stackSlotIndices
        [InstructionOperand.StackSlot 3, InstructionOperand.Register 2] ∧
      sp.pointer_registers =
        (if kSimple &&& kWithRegisters ≠ 0 then registerPointers
          [InstructionOperand.StackSlot 3, InstructionOperand.Register 2]
         else []) ∧
      (kSimple = kSimple → sp.pointer_registers = []) ∧
      sp.kind = kSimple ∧ sp.arguments = 0 ∧
      sp.deopt_mode = DeoptMode.kNoLazyDeopt :=
  claim_C5_record_safepoint ⟨[], []⟩
    [InstructionOperand.StackSlot 3, InstructionOperand.Register 2]
    kSimple 0 DeoptMode.kNoLazyDeopt

/-! ## Theorems: the fix-up pass (C1) -/

theorem update_entries_eq (entries : List LazyDeoptimizationEntry)
    (builder : SafepointTableBuilder) :
    (UpdateSafepointsWithDeoptimizationPc builder entries).entries =
      builder.entries.map (applyEntries entries) := by
  induction entries generalizing builder with
  | nil => simp [UpdateSafepointsWithDeoptimizationPc, applyEntries]
  | cons entry rest ih =>
    rw [UpdateSafepointsWithDeoptimizationPc, ih]
    simp only [SetDeoptimizationPc, List.map_map]
    rfl

theorem applyEntries_id (entries : List LazyDeoptimizationEntry)
    (sp : Safepoint) : (applyEntries entries sp).id = sp.id := by
  induction entries generalizing sp with
  | nil => rfl
  | cons entry rest ih =>
    rw [applyEntries]
    by_cases h : sp.id = entry.safepoint_id
    · rw [if_pos h, ih]
    · rw [if_neg h, ih]

theorem applyEntries_not_mem (entries : List LazyDeoptimizationEntry)
    (sp : Safepoint) (h : ∀ e ∈ entries, sp.id ≠ e.safepoint_id) :
    applyEntries entries sp = sp := by
  induction entries with
  | nil => rfl
  | cons entry rest ih =>
    rw [applyEntries, if_neg (h entry (by simp))]
    exact ih fun e he => h e (List.mem_cons_of_mem _ he)

theorem applyEntries_pc (entries : List LazyDeoptimizationEntry)
    (sp : Safepoint) (e : LazyDeoptimizationEntry) (he : e ∈ entries)
    (hid : sp.id = e.safepoint_id)
    (hnodup : (entries.map LazyDeoptimizationEntry.safepoint_id).Nodup) :
    (applyEntries entries sp).deoptimization_pc =
      some e.deoptimization.pos := by
  induction entries generalizing sp with
  | nil => exact absurd he (List.not_mem_nil e)
  | cons entry rest ih =>
    rw [List.map_cons, List.nodup_cons] at hnodup
    rcases List.mem_cons.mp he with rfl | hrest
    · rw [applyEntries, if_pos hid]
      rw [applyEntries_not_mem]
      intro e' he'
      intro hcontra
      exact hnodup.1 (by
        rw [hid] at hcontra
        exact List.mem_map.mpr ⟨e', he', hcontra.symm⟩)
    · rw [applyEntries]
      have hne : sp.id ≠ entry.safepoint_id := by
        intro hcontra
        apply hnodup.1
        rw [← hcontra, hid]
        exact List.mem_map.mpr ⟨e, hrest, rfl⟩
      rw [if_neg hne]
      exact ih sp hrest hid hnodup.2

/-- Claim C1, counterexample: the entry registered by
`RecordLazyDeoptimizationEntry` for a call at offset 10 captures after-call
offset 10, yet the fix-up pass sets the owning safepoint's deoptimization
pc to the deoptimization-target label's bound position
(`entry.deoptimization()->pos()` = 42), which differs from the captured
after-call offset. -/
theorem claim_C1_counterexample :
    RecordLazyDeoptimizationEntry c1Code c1State c1Instr 0 =
      Except.ok { c1State with lazy_deoptimization_entries := [c1Entry] } ∧
    (UpdateSafepointsWithDeoptimizationPc c1Table [c1Entry]).entries.map
        Safepoint.deoptimization_pc = [some 42] ∧
    c1Entry.position_after_call = 10 ∧ some (42 : Int) ≠ some (10 : Int) := by
  refine ⟨rfl, by decide, rfl, by decide⟩

/-- Claim C1, amended: for every registered lazy-deoptimization entry
(owning safepoint ids pairwise distinct), after the fix-up pass the
deoptimization pc of every safepoint owned by that entry equals the bound
position of the entry's deoptimization-target label — not the captured
after-call offset, which the fix-up pass does not read. -/
theorem claim_C1_update_sets_deopt_label_pc (builder : SafepointTableBuilder)
    (entries : List LazyDeoptimizationEntry)
    (hnodup : (entries.map LazyDeoptimizationEntry.safepoint_id).Nodup) :
    ∀ e ∈ entries,
      ∀ sp ∈ (UpdateSafepointsWithDeoptimizationPc builder entries).entries,
        sp.id = e.safepoint_id →
          sp.deoptimization_pc = some e.deoptimization.pos := by
  intro e he sp hsp hid
  rw [update_entries_eq] at hsp
  obtain ⟨sp₀, hsp₀, rfl⟩ := List.mem_map.mp hsp
  exact applyEntries_pc entries sp₀ e he
    (by rw [← applyEntries_id entries sp₀]; exact hid) hnodup

/-- Witness for the amended C1 at the concrete scenario. -/
theorem claim_C1_witness :
    (([c1Entry].map LazyDeoptimizationEntry.safepoint_id).Nodup) ∧
    ({ id := 0, kind := kSimple, arguments := 0,
       deopt_mode := DeoptMode.kLazyDeopt, pointer_slots := [],
       pointer_registers := [], deoptimization_pc := some 42 } :
        Safepoint).deoptimization_pc = some c1Entry.deoptimization.pos :=
  ⟨by decide,
   claim_C1_update_sets_deopt_label_pc c1Table [c1Entry] (by decide) c1Entry
     (by decide)
     { id := 0, kind := kSimple, arguments := 0,
       deopt_mode := DeoptMode.kLazyDeopt, pointer_slots := [],
       pointer_registers := [], deoptimization_pc := some 42 }
     (by decide) (by decide)⟩

/-! ## Theorems: source positions (C8) -/

/-- Claim C8, counterexample: the unknown position is distinct from the
initial (invalid) `current_source_position_`, yet assembling it forwards
nothing to the emitter (the recorded-position list stays empty) while it
still becomes the new last recorded position — refuting "a position
distinct from the last recorded one is forwarded to the emitter". -/
theorem claim_C8_counterexample :
    SourcePosition.Unknown ≠
      ({ current_source_position := SourcePosition.Invalid,
         recorded_positions := [] } :
          SourcePositionState).current_source_position ∧
    AssembleSourcePosition
        { current_source_position := SourcePosition.Invalid,
          recorded_positions := [] } SourcePosition.Unknown =
      Except.ok { current_source_position := SourcePosition.Unknown,
                  recorded_positions := [] } := by
  constructor
  · decide
  · rfl

/-- Claim C8, amended: assembling a position equal to the last recorded one
is a no-op (nothing forwarded, no state change); a distinct valid known
position is forwarded to the emitter and becomes the new last recorded
position; a distinct unknown position becomes the new last recorded
position without being forwarded; and repeating a successfully assembled
position is a no-op (idempotence). -/
theorem claim_C8_source_position (s : SourcePositionState) (p : SourcePosition) :
    (p = s.current_source_position → AssembleSourcePosition s p = Except.ok s) ∧
    (p ≠ s.current_source_position → p.IsInvalid = false →
      p.IsUnknown = false →
      AssembleSourcePosition s p =
        Except.ok { current_source_position := p,
                    recorded_positions := s.recorded_positions ++ [p.raw] }) ∧
    (p ≠ s.current_source_position → p.IsUnknown = true →
      AssembleSourcePosition s p =
        Except.ok { current_source_position := p,
                    recorded_positions := s.recorded_positions }) ∧
    (∀ s', AssembleSourcePosition s p = Except.ok s' →
      AssembleSourcePosition s' p = Except.ok s') := by
  refine ⟨?_, ?_, ?_, ?_⟩
  · intro h
    rw [AssembleSourcePosition, if_pos h]
  · intro hne hinv hunk
    rw [AssembleSourcePosition, if_neg hne, hinv]
    simp only [Bool.false_eq_true, if_false, hunk, not_false_eq_true, if_pos]
  · intro hne hunk
    have hinv : p.IsInvalid = false := by
      rw [SourcePosition.IsUnknown] at hunk
      rw [SourcePosition.IsInvalid]
      simp only [decide_eq_true_eq] at hunk
      simp [hunk, SourcePosition.kUnknownPosition, SourcePosition.kInvalidPosition]
    rw [AssembleSourcePosition, if_neg hne, hinv]
    simp only [Bool.false_eq_true, if_false, hunk, not_true_eq_false, if_neg]
  · intro s' h
    rw [AssembleSourcePosition] at h
    by_cases heq : p = s.current_source_position
    · rw [if_pos heq] at h
      obtain rfl := Except.ok.inj h
      rw [AssembleSourcePosition, if_pos heq]
    · rw [if_neg heq] at h
      by_cases hinv : p.IsInvalid
      · rw [if_pos hinv] at h
        exact absurd h (by simp)
      · rw [if_neg hinv] at h
        by_cases hunk : p.IsUnknown
        · rw [if_neg (by simpa using hunk)] at h
          obtain rfl := Except.ok.inj h
          rw [AssembleSourcePosition, if_pos rfl]
        · rw [if_pos (by simpa using hunk)] at h
          obtain rfl := Except.ok.inj h
          rw [AssembleSourcePosition, if_pos rfl]

/-- Witness for the amended C8 at concrete inputs. -/
theorem claim_C8_witness :
    (AssembleSourcePosition ⟨⟨5⟩, []⟩ ⟨5⟩ = Except.ok ⟨⟨5⟩, []⟩) ∧
    (AssembleSourcePosition ⟨⟨5⟩, []⟩ ⟨7⟩ = Except.ok ⟨⟨7⟩, [7]⟩) ∧
    (AssembleSourcePosition ⟨⟨5⟩, []⟩ SourcePosition.Unknown =
      Except.ok ⟨SourcePosition.Unknown, []⟩) ∧
    (AssembleSourcePosition ⟨⟨7⟩, [7]⟩ ⟨7⟩ = Except.ok ⟨⟨7⟩, [7]⟩) :=
  ⟨(claim_C8_source_position ⟨⟨5⟩, []⟩ ⟨5⟩).1 rfl,
   (claim_C8_source_position ⟨⟨5⟩, []⟩ ⟨7⟩).2.1 (by decide) (by decide) (by decide),
   (claim_C8_source_position ⟨⟨5⟩, []⟩ SourcePosition.Unknown).2.2.1
     (by decide) (by decide),
   (claim_C8_source_position ⟨⟨5⟩, []⟩ ⟨7⟩).2.2.2 ⟨⟨7⟩, [7]⟩ rfl⟩

/-! ## Theorems: building translations (C2, C4) -/

theorem AddTranslationForOperand_ok (s s' : DeoptTranslationState)
    (op : InstructionOperand)
    (h : AddTranslationForOperand s op = Except.ok s') :
    (∃ r, s'.translations = s.translations ++ [r] ∧ matchesOperand op r) ∧
    s'.deoptimization_states = s.deoptimization_states := by
  cases op with
  | StackSlot i =>
    obtain rfl := Except.ok.inj h
    exact ⟨⟨_, rfl, rfl⟩, rfl⟩
  | DoubleStackSlot i =>
    obtain rfl := Except.ok.inj h
    exact ⟨⟨_, rfl, rfl⟩, rfl⟩
  | Register i =>
    obtain rfl := Except.ok.inj h
    exact ⟨⟨_, rfl, rfl⟩, rfl⟩
  | DoubleRegister i =>
    obtain rfl := Except.ok.inj h
    exact ⟨⟨_, rfl, rfl⟩, rfl⟩
  | Immediate c =>
    rw [AddTranslationForOperand] at h
    cases hc : constantObject s.factory c with
    | error e =>
      rw [hc] at h
      exact absurd h (by simp)
    | ok pr =>
      rw [hc] at h
      obtain ⟨constant_object, factory⟩ := pr
      obtain rfl := Except.ok.inj h
      exact ⟨⟨_, rfl, ⟨_, rfl⟩⟩, rfl⟩

theorem addOperands_ok (ops : List InstructionOperand)
    (s s' : DeoptTranslationState) (h : addOperands s ops = Except.ok s') :
    (∃ recs, s'.translations = s.translations ++ recs ∧
      recs.length = ops.length ∧
      ∀ i, i < ops.length → ∃ op r, ops[i]? = some op ∧ recs[i]? = some r ∧
        matchesOperand op r) ∧
    s'.deoptimization_states = s.deoptimization_states := by
  induction ops generalizing s with
  | nil =>
    obtain rfl := Except.ok.inj h
    exact ⟨⟨[], by simp, rfl,
      fun i hi => absurd (by simp at hi) (fun h => h)⟩, rfl⟩
  | cons op rest ih =>
    rw [addOperands] at h
    cases hstep : AddTranslationForOperand s op with
    | error e =>
      rw [hstep] at h
      exact absurd h (by simp)
    | ok s₁ =>
      rw [hstep] at h
      obtain ⟨⟨r, hr, hmatch⟩, hstates₁⟩ :=
        AddTranslationForOperand_ok s s₁ op hstep
      obtain ⟨⟨recs, hrecs, hlen, hall⟩, hstates₂⟩ := ih s₁ h
      refine ⟨⟨r :: recs, ?_, by simp [hlen], ?_⟩,
        by rw [hstates₂, hstates₁]⟩
      · rw [hrecs, hr]
        simp
      · intro i hi
        cases i with
        | zero => exact ⟨op, r, by simp, by simp, hmatch⟩
        | succ j =>
          have hj : j < rest.length := by simpa using hi
          obtain ⟨op', r', h1, h2, h3⟩ := hall j hj
          exact ⟨op', r', by simpa using h1, by simpa using h2, h3⟩

/-- Claim C2: on success, `BuildTranslation` for a descriptor of value
count `size` and parameter count `parameters_count` appends to the shared
translation buffer a frame marker carrying the descriptor's bailout id and
a local-value count of `size - parameters_count`, followed by exactly one
value-store record per value operand, in input order: slot stores for
(double) stack slots, register stores for (double) registers, literal-index
stores for immediates. -/
theorem claim_C2_build_translation (code : InstructionSequence)
    (s s' : DeoptTranslationState) (instr : Instruction)
    (first_argument_index deoptimization_id : Nat)
    (descriptor : FrameStateDescriptor)
    (hdesc : code.descriptors[deoptimization_id]? = some descriptor)
    (hok : BuildTranslation code s instr first_argument_index
      deoptimization_id = Except.ok s') :
    ∃ recs,
      s'.translations = s.translations ++
        TranslationRecord.BeginJSFrame descriptor.bailout_id kSelfLiteralId
          ((descriptor.size : Int) - (descriptor.parameters_count : Int)) ::
          recs ∧
      recs.length = descriptor.size ∧
      ∀ i, i < descriptor.size →
        ∃ r, recs[i]? = some r ∧
          matchesOperand (instr.InputAt (i + first_argument_index)) r := by
  rw [BuildTranslation] at hok
  split at hok
  · exact absurd hok (by simp)
  · exact absurd hok (by simp)
  · split at hok
    · exact absurd hok (by simp)
    · rename_i descriptor' hdesc'
      rw [hdesc] at hdesc'
      obtain rfl := Option.some.inj hdesc'
      split at hok
      · exact absurd hok (by simp)
      · rename_i s₂ hadd
        obtain rfl := (Except.ok.inj hok).symm
        obtain ⟨⟨recs, hrecs, hlen, hall⟩, -⟩ := addOperands_ok _ _ _ hadd
        refine ⟨recs, ?_, by simpa using hlen, ?_⟩
        · show s₂.translations = _
          rw [hrecs]
          simp
        · intro i hi
          obtain ⟨op, r, hop, hr, hm⟩ := hall i (by simpa using hi)
          refine ⟨r, hr, ?_⟩
          rw [List.getElem?_map] at hop
          rw [List.getElem?_range hi] at hop
          simp only [Option.map_some'] at hop
          obtain rfl := Option.some.inj hop
          exact hm

/-- Witness for C2: the concrete scenario (descriptor with 3 values and 1
parameter; operands: two stack slots and one Int32 immediate). -/
theorem claim_C2_witness :
    ∃ recs,
      c2Result.translations = [] ++
        TranslationRecord.BeginJSFrame 7 kSelfLiteralId ((3 : Int) - (1 : Int)) ::
          recs ∧
      recs.length = 3 ∧
      ∀ i, i < 3 →
        ∃ r, recs[i]? = some r ∧
          matchesOperand (c2Instr.InputAt (i + 2)) r :=
  claim_C2_build_translation c2Code emptyDeopt1 c2Result c2Instr 2 0
    ⟨7, 3, 1⟩ rfl rfl

/-- Claim C4: for every deoptimization id, the translation is built at most
once: when the `DeoptimizationState` slot is already filled,
`BuildTranslation` is the fatal invariant violation `DCHECK_EQ(NULL, ...)`;
and on success the slot was previously unbuilt, is filled with the
translation's start index, and no other slot is changed — a built
translation index is never silently overwritten. -/
theorem claim_C4_build_translation_once (code : InstructionSequence)
    (s : DeoptTranslationState) (instr : Instruction)
    (first_argument_index deoptimization_id : Nat) :
    (∀ t, s.deoptimization_states[deoptimization_id]? = some (some t) →
      BuildTranslation code s instr first_argument_index deoptimization_id =
        Except.error Err.dcheckFailed) ∧
    (∀ s', BuildTranslation code s instr first_argument_index
        deoptimization_id = Except.ok s' →
      s.deoptimization_states[deoptimization_id]? = some none ∧
      s'.deoptimization_states[deoptimization_id]? =
        some (some s.translations.length) ∧
      ∀ j t, j ≠ deoptimization_id → s.deoptimization_states[j]? = some t →
        s'.deoptimization_states[j]? = some t) := by
  constructor
  · intro t ht
    rw [BuildTranslation, ht]
  · intro s' hok
    rw [BuildTranslation] at hok
    split at hok
    · exact absurd hok (by simp)
    · exact absurd hok (by simp)
    · rename_i hslot
      split at hok
      · exact absurd hok (by simp)
      · rename_i descriptor hdesc
        split at hok
        · exact absurd hok (by simp)
        · rename_i s₂ hadd
          obtain rfl := (Except.ok.inj hok).symm
          obtain ⟨-, hstates⟩ := addOperands_ok _ _ _ hadd
          have hlt : deoptimization_id < s.deoptimization_states.length :=
            (List.getElem?_eq_some.mp hslot).1
          refine ⟨hslot, ?_, ?_⟩
          · show (s₂.deoptimization_states.set deoptimization_id
              (some s.translations.length))[deoptimization_id]? = _
            rw [List.getElem?_set_self (by rw [hstates]; exact hlt)]
          · intro j t hj hsj
            show (s₂.deoptimization_states.set deoptimization_id
              (some s.translations.length))[j]? = some t
            rw [List.getElem?_set_ne (by omega)]
            rw [hstates]
            exact hsj

/-- Witness for C4: the already-built slot is rejected, and the successful
concrete run of the C2 scenario fills the previously unbuilt slot with the
translation's start index. -/
theorem claim_C4_witness :
    BuildTranslation c2Code c4Filled c2Instr 2 0 =
      Except.error Err.dcheckFailed ∧
    emptyDeopt1.deoptimization_states[0]? = some none ∧
    c2Result.deoptimization_states[0]? =
      some (some emptyDeopt1.translations.length) :=
  ⟨(claim_C4_build_translation_once c2Code c4Filled c2Instr 2 0).1 3 rfl,
   ((claim_C4_build_translation_once c2Code emptyDeopt1 c2Instr 2 0).2
     c2Result rfl).1,
   ((claim_C4_build_translation_once c2Code emptyDeopt1 c2Instr 2 0).2
     c2Result rfl).2.1⟩

/-! ## Theorems: immediates and the literal pool (C10) -/

theorem AddTranslationForOperand_immediate (s : DeoptTranslationState)
    (c : Constant) (obj : ObjRef) (f : Factory)
    (hco : constantObject s.factory c = Except.ok (obj, f)) :
    AddTranslationForOperand s (InstructionOperand.Immediate c) =
      Except.ok (internStep s obj f) := by
  rw [AddTranslationForOperand, hco]
  rfl

theorem constantObject_kInt32_smi (f : Factory) (v : Int)
    (hv : Smi.IsValid v = true) :
    constantObject f (Constant.kInt32 v) = Except.ok (ObjRef.smi v, f) := by
  simp [constantObject, Factory.NewNumberFromInt, hv]

theorem constantObject_kInt32_large (f : Factory) (v : Int)
    (hv : Smi.IsValid v = false) :
    constantObject f (Constant.kInt32 v) =
      Except.ok (ObjRef.heap f.next_object, ⟨f.next_object + 1⟩) := by
  simp [constantObject, Factory.NewNumberFromInt, hv, Factory.allocate]

theorem constantObject_kFloat64 (f : Factory) (bits : Int) :
    constantObject f (Constant.kFloat64 bits) =
      Except.ok (ObjRef.heap f.next_object, ⟨f.next_object + 1⟩) := rfl

theorem constantObject_kHeapObject (f : Factory) (ref : ObjRef) :
    constantObject f (Constant.kHeapObject ref) = Except.ok (ref, f) := rfl

theorem storeLiteral_append_inj {ts : List TranslationRecord} {a b : Nat}
    (h : ts ++ [TranslationRecord.StoreLiteral a] =
      ts ++ [TranslationRecord.StoreLiteral b]) : a = b := by
  have h' := List.append_cancel_left h
  simpa using h'

/-- The literal index and pool a freshly allocated heap handle receives:
every heap handle already in the pool was allocated earlier (its id is
below the factory's next id), so the fresh handle is appended at index
`pool.length`. -/
theorem fresh_define_heap (pool : List ObjRef) (next : Nat)
    (hfresh : ∀ id : Nat, ObjRef.heap id ∈ pool → id < next) :
    DefineDeoptimizationLiteral pool (ObjRef.heap next) =
      (pool.length, pool ++ [ObjRef.heap next]) :=
  DefineDeoptimizationLiteral_not_mem
    (fun hmem => absurd (hfresh next hmem) (lt_irrefl next))

/-- Claim C10, counterexample: `NewNumberFromInt` returns the
value-identical Smi handle for a Smi-range value, so the claim's "wraps it
in a freshly allocated heap object" and "two numerically equal Int32
immediates always receive two distinct literal-pool indices" both fail:
processing the Int32 immediate 9 twice from the empty state interns the
same Smi handle, yields the literal index 0 both times, and allocates
nothing (the factory's next id stays 0). -/
theorem claim_C10_counterexample :
    Smi.IsValid 9 = true ∧
    addOperands emptyDeopt0
        [InstructionOperand.Immediate (Constant.kInt32 9),
         InstructionOperand.Immediate (Constant.kInt32 9)] =
      Except.ok
        { translations := [TranslationRecord.StoreLiteral 0,
                           TranslationRecord.StoreLiteral 0],
          deoptimization_literals := [ObjRef.smi 9],
          deoptimization_states := [],
          factory := { next_object := 0 } } := by
  constructor
  · decide
  · rfl

/-- Claim C10, amended: an `Int32` immediate in Smi range interns the
value-identical Smi handle — nothing is allocated — so two numerically
equal Smi-range `Int32` immediates processed by separate calls receive the
same literal-pool index; a `Float64` immediate, or an `Int32` immediate
outside the modelled Smi range, is wrapped in a freshly allocated heap
number before interning, so two such immediates always receive two
distinct indices; and two reference-identical heap-object immediates
receive the same index.  The hypothesis is the allocation-order
invariant: every heap handle in the pool was allocated before the
factory's next object. -/
theorem claim_C10_immediate_literal_identity (s : DeoptTranslationState)
    (hfresh : ∀ id : Nat, ObjRef.heap id ∈ s.deoptimization_literals →
      id < s.factory.next_object) :
    (∀ v : Int, Smi.IsValid v = true →
      ∀ s₁ s₂ : DeoptTranslationState, ∀ i₁ i₂ : Nat,
      AddTranslationForOperand s
          (InstructionOperand.Immediate (Constant.kInt32 v)) = Except.ok s₁ →
      s₁.translations = s.translations ++ [TranslationRecord.StoreLiteral i₁] →
      AddTranslationForOperand s₁
          (InstructionOperand.Immediate (Constant.kInt32 v)) = Except.ok s₂ →
      s₂.translations = s₁.translations ++ [TranslationRecord.StoreLiteral i₂] →
      i₁ = i₂) ∧
    (∀ v w : Int, Smi.IsValid v = false → Smi.IsValid w = false →
      ∀ s₁ s₂ : DeoptTranslationState, ∀ i₁ i₂ : Nat,
      AddTranslationForOperand s
          (InstructionOperand.Immediate (Constant.kInt32 v)) = Except.ok s₁ →
      s₁.translations = s.translations ++ [TranslationRecord.StoreLiteral i₁] →
      AddTranslationForOperand s₁
          (InstructionOperand.Immediate (Constant.kInt32 w)) = Except.ok s₂ →
      s₂.translations = s₁.translations ++ [TranslationRecord.StoreLiteral i₂] →
      i₁ ≠ i₂) ∧
    (∀ bv bw : Int, ∀ s₁ s₂ : DeoptTranslationState, ∀ i₁ i₂ : Nat,
      AddTranslationForOperand s
          (InstructionOperand.Immediate (Constant.kFloat64 bv)) = Except.ok s₁ →
      s₁.translations = s.translations ++ [TranslationRecord.StoreLiteral i₁] →
      AddTranslationForOperand s₁
          (InstructionOperand.Immediate (Constant.kFloat64 bw)) = Except.ok s₂ →
      s₂.translations = s₁.translations ++ [TranslationRecord.StoreLiteral i₂] →
      i₁ ≠ i₂) ∧
    (∀ ref : ObjRef, ∀ s₁ s₂ : DeoptTranslationState, ∀ i₁ i₂ : Nat,
      AddTranslationForOperand s
          (InstructionOperand.Immediate (Constant.kHeapObject ref)) =
        Except.ok s₁ →
      s₁.translations = s.translations ++ [TranslationRecord.StoreLiteral i₁] →
      AddTranslationForOperand s₁
          (InstructionOperand.Immediate (Constant.kHeapObject ref)) =
        Except.ok s₂ →
      s₂.translations = s₁.translations ++ [TranslationRecord.StoreLiteral i₂] →
      i₁ = i₂) := by
  have hfresh₁ : ∀ id : Nat,
      ObjRef.heap id ∈ s.deoptimization_literals ++
        [ObjRef.heap s.factory.next_object] →
      id < s.factory.next_object + 1 := by
    intro id hx
    rcases List.mem_append.mp hx with hx | hx
    · exact Nat.lt_succ_of_lt (hfresh id hx)
    · obtain rfl := ObjRef.heap.inj (List.mem_singleton.mp hx)
      exact Nat.lt_succ_self _
  refine ⟨?_, ?_, ?_, ?_⟩
  · intro v hv s₁ s₂ i₁ i₂ h1 ht1 h2 ht2
    rw [AddTranslationForOperand_immediate s (Constant.kInt32 v)
      (ObjRef.smi v) s.factory
      (constantObject_kInt32_smi s.factory v hv)] at h1
    obtain rfl := (Except.ok.inj h1).symm
    rw [AddTranslationForOperand_immediate
      (internStep s (ObjRef.smi v) s.factory) (Constant.kInt32 v)
      (ObjRef.smi v) s.factory
      (constantObject_kInt32_smi s.factory v hv)] at h2
    obtain rfl := (Except.ok.inj h2).symm
    have hi₁ : (DefineDeoptimizationLiteral s.deoptimization_literals
        (ObjRef.smi v)).1 = i₁ := storeLiteral_append_inj ht1
    have hi₂ : (DefineDeoptimizationLiteral
        (DefineDeoptimizationLiteral s.deoptimization_literals
          (ObjRef.smi v)).2 (ObjRef.smi v)).1 = i₂ :=
      storeLiteral_append_inj ht2
    rw [DefineDeoptimizationLiteral_idem] at hi₂
    rw [← hi₁, ← hi₂]
  · intro v w hv hw s₁ s₂ i₁ i₂ h1 ht1 h2 ht2
    rw [AddTranslationForOperand_immediate s (Constant.kInt32 v)
      (ObjRef.heap s.factory.next_object) ⟨s.factory.next_object + 1⟩
      (constantObject_kInt32_large s.factory v hv)] at h1
    obtain rfl := (Except.ok.inj h1).symm
    have hi₁ : s.deoptimization_literals.length = i₁ := by
      have h : (DefineDeoptimizationLiteral s.deoptimization_literals
          (ObjRef.heap s.factory.next_object)).1 = i₁ :=
        storeLiteral_append_inj ht1
      rw [fresh_define_heap s.deoptimization_literals s.factory.next_object
        hfresh] at h
      exact h
    rw [AddTranslationForOperand_immediate
      (internStep s (ObjRef.heap s.factory.next_object)
        ⟨s.factory.next_object + 1⟩)
      (Constant.kInt32 w) (ObjRef.heap (s.factory.next_object + 1))
      ⟨s.factory.next_object + 2⟩
      (constantObject_kInt32_large ⟨s.factory.next_object + 1⟩ w hw)] at h2
    obtain rfl := (Except.ok.inj h2).symm
    have h2' : (DefineDeoptimizationLiteral
        (DefineDeoptimizationLiteral s.deoptimization_literals
          (ObjRef.heap s.factory.next_object)).2
        (ObjRef.heap (s.factory.next_object + 1))).1 = i₂ :=
      storeLiteral_append_inj ht2
    rw [fresh_define_heap s.deoptimization_literals s.factory.next_object
      hfresh] at h2'
    have h2'' : (DefineDeoptimizationLiteral
        (s.deoptimization_literals ++ [ObjRef.heap s.factory.next_object])
        (ObjRef.heap (s.factory.next_object + 1))).1 = i₂ := h2'
    have hi₂ : s.deoptimization_literals.length + 1 = i₂ := by
      rw [fresh_define_heap _ _ hfresh₁] at h2''
      simpa using h2''
    omega
  · intro bv bw s₁ s₂ i₁ i₂ h1 ht1 h2 ht2
    rw [AddTranslationForOperand_immediate s (Constant.kFloat64 bv)
      (ObjRef.heap s.factory.next_object) ⟨s.factory.next_object + 1⟩
      (constantObject_kFloat64 s.factory bv)] at h1
    obtain rfl := (Except.ok.inj h1).symm
    have hi₁ : s.deoptimization_literals.length = i₁ := by
      have h : (DefineDeoptimizationLiteral s.deoptimization_literals
          (ObjRef.heap s.factory.next_object)).1 = i₁ :=
        storeLiteral_append_inj ht1
      rw [fresh_define_heap s.deoptimization_literals s.factory.next_object
        hfresh] at h
      exact h
    rw [AddTranslationForOperand_immediate
      (internStep s (ObjRef.heap s.factory.next_object)
        ⟨s.factory.next_object + 1⟩)
      (Constant.kFloat64 bw) (ObjRef.heap (s.factory.next_object + 1))
      ⟨s.factory.next_object + 2⟩
      (constantObject_kFloat64 ⟨s.factory.next_object + 1⟩ bw)] at h2
    obtain rfl := (Except.ok.inj h2).symm
    have h2' : (DefineDeoptimizationLiteral
        (DefineDeoptimizationLiteral s.deoptimization_literals
          (ObjRef.heap s.factory.next_object)).2
        (ObjRef.heap (s.factory.next_object + 1))).1 = i₂ :=
      storeLiteral_append_inj ht2
    rw [fresh_define_heap s.deoptimization_literals s.factory.next_object
      hfresh] at h2'
    have h2'' : (DefineDeoptimizationLiteral
        (s.deoptimization_literals ++ [ObjRef.heap s.factory.next_object])
        (ObjRef.heap (s.factory.next_object + 1))).1 = i₂ := h2'
    have hi₂ : s.deoptimization_literals.length + 1 = i₂ := by
      rw [fresh_define_heap _ _ hfresh₁] at h2''
      simpa using h2''
    omega
  · intro ref s₁ s₂ i₁ i₂ h1 ht1 h2 ht2
    rw [AddTranslationForOperand_immediate s (Constant.kHeapObject ref) ref
      s.factory (constantObject_kHeapObject s.factory ref)] at h1
    obtain rfl := (Except.ok.inj h1).symm
    rw [AddTranslationForOperand_immediate (internStep s ref s.factory)
      (Constant.kHeapObject ref) ref s.factory
      (constantObject_kHeapObject s.factory ref)] at h2
    obtain rfl := (Except.ok.inj h2).symm
    have hi₁ : (DefineDeoptimizationLiteral s.deoptimization_literals ref).1 =
        i₁ := storeLiteral_append_inj ht1
    have hi₂ : (DefineDeoptimizationLiteral
        (DefineDeoptimizationLiteral s.deoptimization_literals ref).2 ref).1 =
        i₂ := storeLiteral_append_inj ht2
    rw [DefineDeoptimizationLiteral_idem] at hi₂
    rw [← hi₁, ← hi₂]

/-- Witness for the amended C10: from the empty state, the Smi-range Int32
immediate 9 interned twice receives index 0 both times; two Float64
immediates of equal bit pattern receive indices 0 and 1; the heap-object
handle 5 interned twice receives index 0 both times. -/
theorem claim_C10_witness :
    ((0 : Nat) = 0) ∧ ((0 : Nat) ≠ 1) ∧ ((0 : Nat) = 0) :=
  ⟨(claim_C10_immediate_literal_identity emptyDeopt0
      (fun _ h => absurd h (List.not_mem_nil _))).1
     9 (by decide) c10a₁ c10a₂ 0 0 rfl rfl rfl rfl,
   (claim_C10_immediate_literal_identity emptyDeopt0
      (fun _ h => absurd h (List.not_mem_nil _))).2.2.1
     3 3 c10s₁ c10s₂ 0 1 rfl rfl rfl rfl,
   (claim_C10_immediate_literal_identity emptyDeopt0
      (fun _ h => absurd h (List.not_mem_nil _))).2.2.2
     (ObjRef.heap 5) c10h₁ c10h₂ 0 0 rfl rfl rfl rfl⟩

/-! ## Theorems: deoptimization metadata assembly (C6, C7) -/

/-- Claim C6: with zero deoptimization entries (frame states) and zero
lazy-deopt entries, `PopulateDeoptimizationData` returns at once without
constructing any metadata: the code object comes back unchanged, so its
deoptimization data stays exactly as it was (unset if it was unset). -/
theorem claim_C6_populate_skips (info : CompilationInfo)
    (code : InstructionSequence) (s : DeoptTranslationState)
    (lazy_deoptimization_entries : List LazyDeoptimizationEntry)
    (code_object : CodeObject)
    (hdeopt : code.GetDeoptimizationEntryCount = 0)
    (hlazy : lazy_deoptimization_entries.length = 0) :
    PopulateDeoptimizationData info code s lazy_deoptimization_entries
      code_object = Except.ok code_object ∧
    ∀ obj', PopulateDeoptimizationData info code s lazy_deoptimization_entries
        code_object = Except.ok obj' →
      obj'.deoptimization_data = code_object.deoptimization_data := by
  have h : PopulateDeoptimizationData info code s lazy_deoptimization_entries
      code_object = Except.ok code_object := by
    rw [PopulateDeoptimizationData, if_pos ⟨hlazy, hdeopt⟩]
  refine ⟨h, fun obj' h' => ?_⟩
  rw [h] at h'
  obtain rfl := Except.ok.inj h'
  rfl

/-- Witness for C6: an instruction sequence with no frame states and no
lazy-deopt entries leaves a data-less code object untouched. -/
theorem claim_C6_witness :
    PopulateDeoptimizationData c7Info c6Code emptyDeopt0 [] ⟨none⟩ =
      Except.ok ⟨none⟩ ∧
    (⟨none⟩ : CodeObject).deoptimization_data =
      (⟨none⟩ : CodeObject).deoptimization_data :=
  ⟨(claim_C6_populate_skips c7Info c6Code emptyDeopt0 [] ⟨none⟩ rfl rfl).1,
   (claim_C6_populate_skips c7Info c6Code emptyDeopt0 [] ⟨none⟩ rfl rfl).2
     ⟨none⟩
     (claim_C6_populate_skips c7Info c6Code emptyDeopt0 [] ⟨none⟩ rfl rfl).1⟩

theorem populateRows_ok (descriptors : List FrameStateDescriptor)
    (states : List (Option Nat)) (rows : List (Int × Nat))
    (h : populateRows descriptors states = Except.ok rows) :
    rows.length = descriptors.length ∧
    ∀ i, i < descriptors.length →
      ∃ descriptor t, descriptors[i]? = some descriptor ∧
        states[i]? = some (some t) ∧
        rows[i]? = some (descriptor.bailout_id, t) := by
  induction descriptors generalizing states rows with
  | nil =>
    obtain rfl := (Except.ok.inj h).symm
    exact ⟨rfl, fun i hi => absurd hi (by simp)⟩
  | cons d ds ih =>
    cases states with
    | nil => exact absurd h (by simp [populateRows])
    | cons st sts =>
      cases st with
      | none => exact absurd h (by simp [populateRows])
      | some translation_id =>
        rw [populateRows] at h
        cases hrec : populateRows ds sts with
        | error e =>
          rw [hrec] at h
          exact absurd h (by simp)
        | ok rest =>
          rw [hrec] at h
          obtain rfl := (Except.ok.inj h).symm
          obtain ⟨hlen, hall⟩ := ih sts rest hrec
          refine ⟨by simp [hlen], ?_⟩
          intro i hi
          cases i with
          | zero => exact ⟨d, translation_id, by simp, by simp, by simp⟩
          | succ j =>
            obtain ⟨desc, t', h1, h2, h3⟩ := hall j (by simpa using hi)
            exact ⟨desc, t', by simpa using h1, by simpa using h2,
              by simpa using h3⟩

/-- Claim C7: whenever `PopulateDeoptimizationData` produces a metadata
blob, then for every deoptimization id the argument-stack-height field is
the fixed placeholder 0 and the pc field the fixed placeholder -1, while
the bailout id comes from the frame-state descriptor and the translation
start index from the built `DeoptimizationState`. -/
theorem claim_C7_deopt_table_fields (info : CompilationInfo)
    (code : InstructionSequence) (s : DeoptTranslationState)
    (lazy_deoptimization_entries : List LazyDeoptimizationEntry)
    (code_object obj' : CodeObject) (d : DeoptimizationInputData)
    (hok : PopulateDeoptimizationData info code s lazy_deoptimization_entries
      code_object = Except.ok obj')
    (hfirst : code_object.deoptimization_data = none)
    (hdata : obj'.deoptimization_data = some d) :
    ∀ i, i < code.GetDeoptimizationEntryCount →
      d.arguments_stack_heights[i]? = some 0 ∧
      d.pcs[i]? = some (-1) ∧
      (∃ descriptor, code.descriptors[i]? = some descriptor ∧
        d.ast_ids[i]? = some descriptor.bailout_id) ∧
      (∃ t, s.deoptimization_states[i]? = some (some t) ∧
        d.translation_indices[i]? = some (t : Int)) := by
  intro i hi
  rw [PopulateDeoptimizationData] at hok
  split at hok
  · obtain rfl := Except.ok.inj hok
    rw [hfirst] at hdata
    exact absurd hdata (by simp)
  · split at hok
    · exact absurd hok (by simp)
    · rename_i rows hrows
      obtain rfl := (Except.ok.inj hok).symm
      have hd : some _ = some d := hdata
      obtain rfl := (Option.some.inj hd).symm
      obtain ⟨hlen, hall⟩ := populateRows_ok _ _ _ hrows
      obtain ⟨descriptor, t, h1, h2, h3⟩ := hall i hi
      refine ⟨?_, ?_, ⟨descriptor, h1, ?_⟩, ⟨t, h2, ?_⟩⟩
      · show (rows.map (fun _ => (0 : Int)))[i]? = some 0
        rw [List.getElem?_map, h3]
        rfl
      · show (rows.map (fun _ => (-1 : Int)))[i]? = some (-1)
        rw [List.getElem?_map, h3]
        rfl
      · show (rows.map Prod.fst)[i]? = some descriptor.bailout_id
        rw [List.getElem?_map, h3]
        rfl
      · show (rows.map (fun row => (row.2 : Int)))[i]? = some (t : Int)
        rw [List.getElem?_map, h3]
        rfl

/-- Witness for C7 at the concrete one-descriptor scenario. -/
theorem claim_C7_witness :
    c7Data.arguments_stack_heights[0]? = some 0 ∧
    c7Data.pcs[0]? = some (-1) ∧
    (∃ descriptor, c7Code.descriptors[0]? = some descriptor ∧
      c7Data.ast_ids[0]? = some descriptor.bailout_id) ∧
    (∃ t : Nat, c7State.deoptimization_states[0]? = some (some t) ∧
      c7Data.translation_indices[0]? = some (t : Int)) :=
  claim_C7_deopt_table_fields c7Info c7Code c7State [] ⟨none⟩ ⟨some c7Data⟩
    c7Data rfl rfl rfl 0 (by decide)

/-! ## Theorems: the call-site driver path (C9) -/

theorem RecordLazyDeoptimizationEntry_ok (code : InstructionSequence)
    (s s' : CodeGenState) (instr : Instruction) (safepoint_id : Nat)
    (h : RecordLazyDeoptimizationEntry code s instr safepoint_id =
      Except.ok s') :
    s'.safepoints = s.safepoints ∧ s'.deopt = s.deopt ∧
    s'.masm_pc = s.masm_pc ∧
    ∃ entry : LazyDeoptimizationEntry,
      s'.lazy_deoptimization_entries =
        s.lazy_deoptimization_entries ++ [entry] ∧
      entry.safepoint_id = safepoint_id ∧
      entry.position_after_call = s.masm_pc := by
  rw [RecordLazyDeoptimizationEntry] at h
  split at h
  · exact absurd h (by simp)
  · split at h
    · exact absurd h (by simp)
    · split at h
      · exact absurd h (by simp)
      · split at h
        · exact absurd h (by simp)
        · obtain rfl := (Except.ok.inj h).symm
          exact ⟨rfl, rfl, rfl, _, rfl, rfl, rfl⟩

theorem frameStateStep_ok (code : InstructionSequence) (s s' : CodeGenState)
    (instr : Instruction) (h : frameStateStep code s instr = Except.ok s') :
    s'.safepoints.entries = s.safepoints.entries ∧
    s'.lazy_deoptimization_entries = s.lazy_deoptimization_entries := by
  rw [frameStateStep] at h
  split at h
  · exact absurd h (by simp)
  · split at h
    · exact absurd h (by simp)
    · split at h
      · exact absurd h (by simp)
      · split at h
        · exact absurd h (by simp)
        · split at h
          · split at h
            · exact absurd h (by simp)
            · obtain rfl := (Except.ok.inj h).symm
              exact ⟨rfl, rfl⟩
          · exact absurd h (by simp)

theorem AddSafepointAndDeopt_eq (code : InstructionSequence)
    (s : CodeGenState) (instr : Instruction) :
    AddSafepointAndDeopt code s instr =
      match (if instr.miscFlags &&& kLazyDeoptimization ≠ 0 then
               RecordLazyDeoptimizationEntry code
                 { s with
                   safepoints :=
                     (RecordSafepoint s.safepoints instr.pointer_map kSimple 0
                       (if instr.miscFlags &&& kNeedsFrameState ≠ 0
                        then DeoptMode.kLazyDeopt
                        else DeoptMode.kNoLazyDeopt)).2 }
                 instr
                 (RecordSafepoint s.safepoints instr.pointer_map kSimple 0
                   (if instr.miscFlags &&& kNeedsFrameState ≠ 0
                    then DeoptMode.kLazyDeopt
                    else DeoptMode.kNoLazyDeopt)).1
             else
               Except.ok
                 { s with
                   safepoints :=
                     (RecordSafepoint s.safepoints instr.pointer_map kSimple 0
                       (if instr.miscFlags &&& kNeedsFrameState ≠ 0
                        then DeoptMode.kLazyDeopt
                        else DeoptMode.kNoLazyDeopt)).2 }) with
      | Except.error e => Except.error e
      | Except.ok s₂ =>
          if instr.miscFlags &&& kNeedsFrameState ≠ 0 then
            frameStateStep code s₂ instr
          else Except.ok s₂ := rfl

/-- Claim C9: every safepoint recorded by the call-site path
`AddSafepointAndDeopt` has kind `kSimple` and argument count 0, its deopt
mode is `kLazyDeopt` exactly when the descriptor's needs-frame-state bit is
set, it never marks a pointer register, and a lazy-deoptimization entry
owned by that safepoint is recorded exactly when the descriptor's
lazy-deoptimization bit is set. -/
theorem claim_C9_call_site_safepoints (code : InstructionSequence)
    (s s' : CodeGenState) (instr : Instruction)
    (hok : AddSafepointAndDeopt code s instr = Except.ok s') :
    ∃ sp : Safepoint,
      s'.safepoints.entries = s.safepoints.entries ++ [sp] ∧
      sp.kind = kSimple ∧ sp.arguments = 0 ∧
      sp.deopt_mode = (if instr.miscFlags &&& kNeedsFrameState ≠ 0
        then DeoptMode.kLazyDeopt else DeoptMode.kNoLazyDeopt) ∧
      sp.pointer_registers = [] ∧
      (if instr.miscFlags &&& kLazyDeoptimization ≠ 0 then
        ∃ entry : LazyDeoptimizationEntry,
          s'.lazy_deoptimization_entries =
            s.lazy_deoptimization_entries ++ [entry] ∧
          entry.safepoint_id = sp.id
       else s'.lazy_deoptimization_entries =
         s.lazy_deoptimization_entries) := by
  rw [AddSafepointAndDeopt_eq] at hok
  by_cases hneeds : instr.miscFlags &&& kNeedsFrameState ≠ 0
  · by_cases hlazyC : instr.miscFlags &&& kLazyDeoptimization ≠ 0
    · -- needs-frame-state set, lazy-deoptimization set
      rw [if_pos hlazyC, if_pos hneeds] at hok
      split at hok
      · exact absurd hok (by simp)
      · rename_i s₂ hrec
        rw [if_pos hneeds] at hok
        obtain ⟨hsp₂, -, -, entry, hle, hesid, -⟩ :=
          RecordLazyDeoptimizationEntry_ok _ _ _ _ _ hrec
        obtain ⟨hentries₂, hlazy₂⟩ := frameStateStep_ok _ _ _ _ hok
        obtain ⟨sp, hentries, -, hid, -, hregs, hkind, hargs, hmode⟩ :=
          RecordSafepoint_spec s.safepoints instr.pointer_map kSimple 0
            DeoptMode.kLazyDeopt
        have hsp₂' : s₂.safepoints =
            (RecordSafepoint s.safepoints instr.pointer_map kSimple 0
              DeoptMode.kLazyDeopt).2 := hsp₂
        refine ⟨sp, ?_, hkind, hargs, by rw [if_pos hneeds]; exact hmode,
          by rw [hregs]; simp [kSimple, kWithRegisters], ?_⟩
        · rw [hentries₂, hsp₂']
          exact hentries
        · rw [if_pos hlazyC]
          exact ⟨entry, by rw [hlazy₂]; exact hle, by rw [hesid]; exact hid⟩
    · -- needs-frame-state set, lazy-deoptimization clear
      rw [if_neg hlazyC, if_pos hneeds] at hok
      have hok' : (if instr.miscFlags &&& kNeedsFrameState ≠ 0 then
          frameStateStep code
            { s with
              safepoints :=
                (RecordSafepoint s.safepoints instr.pointer_map kSimple 0
                  DeoptMode.kLazyDeopt).2 } instr
        else Except.ok
          { s with
            safepoints :=
              (RecordSafepoint s.safepoints instr.pointer_map kSimple 0
                DeoptMode.kLazyDeopt).2 }) = Except.ok s' := hok
      rw [if_pos hneeds] at hok'
      obtain ⟨hentries₂, hlazy₂⟩ := frameStateStep_ok _ _ _ _ hok'
      obtain ⟨sp, hentries, -, hid, -, hregs, hkind, hargs, hmode⟩ :=
        RecordSafepoint_spec s.safepoints instr.pointer_map kSimple 0
          DeoptMode.kLazyDeopt
      refine ⟨sp, ?_, hkind, hargs, by rw [if_pos hneeds]; exact hmode,
        by rw [hregs]; simp [kSimple, kWithRegisters], ?_⟩
      · rw [hentries₂]
        exact hentries
      · rw [if_neg hlazyC, hlazy₂]
  · by_cases hlazyC : instr.miscFlags &&& kLazyDeoptimization ≠ 0
    · -- needs-frame-state clear, lazy-deoptimization set
      rw [if_pos hlazyC, if_neg hneeds] at hok
      split at hok
      · exact absurd hok (by simp)
      · rename_i s₂ hrec
        rw [if_neg hneeds] at hok
        obtain rfl := (Except.ok.inj hok).symm
        obtain ⟨hsp₂, -, -, entry, hle, hesid, -⟩ :=
          RecordLazyDeoptimizationEntry_ok _ _ _ _ _ hrec
        obtain ⟨sp, hentries, -, hid, -, hregs, hkind, hargs, hmode⟩ :=
          RecordSafepoint_spec s.safepoints instr.pointer_map kSimple 0
            DeoptMode.kNoLazyDeopt
        have hsp₂' : s'.safepoints =
            (RecordSafepoint s.safepoints instr.pointer_map kSimple 0
              DeoptMode.kNoLazyDeopt).2 := hsp₂
        refine ⟨sp, ?_, hkind, hargs, by rw [if_neg hneeds]; exact hmode,
          by rw [hregs]; simp [kSimple, kWithRegisters], ?_⟩
        · rw [hsp₂']
          exact hentries
        · rw [if_pos hlazyC]
          exact ⟨entry, hle, by rw [hesid]; exact hid⟩
    · -- both bits clear
      rw [if_neg hlazyC, if_neg hneeds] at hok
      have hok' : (if instr.miscFlags &&& kNeedsFrameState ≠ 0 then
          frameStateStep code
            { s with
              safepoints :=
                (RecordSafepoint s.safepoints instr.pointer_map kSimple 0
                  DeoptMode.kNoLazyDeopt).2 } instr
        else Except.ok
          { s with
            safepoints :=
              (RecordSafepoint s.safepoints instr.pointer_map kSimple 0
                DeoptMode.kNoLazyDeopt).2 }) = Except.ok s' := hok
      rw [if_neg hneeds] at hok'
      obtain rfl := (Except.ok.inj hok').symm
      obtain ⟨sp, hentries, -, hid, -, hregs, hkind, hargs, hmode⟩ :=
        RecordSafepoint_spec s.safepoints instr.pointer_map kSimple 0
          DeoptMode.kNoLazyDeopt
      refine ⟨sp, hentries, hkind, hargs, by rw [if_neg hneeds]; exact hmode,
        by rw [hregs]; simp [kSimple, kWithRegisters], ?_⟩
      rw [if_neg hlazyC]

/-- Witness for C9 at the concrete scenario with both descriptor bits
set. -/
theorem claim_C9_witness :
    ∃ sp : Safepoint,
      c9Result.safepoints.entries = c9State.safepoints.entries ++ [sp] ∧
      sp.kind = kSimple ∧ sp.arguments = 0 ∧
      sp.deopt_mode = (if c9Instr.miscFlags &&& kNeedsFrameState ≠ 0
        then DeoptMode.kLazyDeopt else DeoptMode.kNoLazyDeopt) ∧
      sp.pointer_registers = [] ∧
      (if c9Instr.miscFlags &&& kLazyDeoptimization ≠ 0 then
        ∃ entry : LazyDeoptimizationEntry,
          c9Result.lazy_deoptimization_entries =
            c9State.lazy_deoptimization_entries ++ [entry] ∧
          entry.safepoint_id = sp.id
       else c9Result.lazy_deoptimization_entries =
         c9State.lazy_deoptimization_entries) :=
  claim_C9_call_site_safepoints c9Code c9State c9Result c9Instr rfl

end V8
